import Mathlib

/-!
Verification development for the accommodation-agent repository.

The Python sources are shallowly embedded: each Lean definition mirrors one
function of the repository. SQLite tables become Lean lists carried in a `DB`
record, `CURRENT_TIMESTAMP` becomes an explicit `now : Int` parameter
(seconds), SQL `REAL` prices become `ℚ`, and the md5 digests used for identity
are modelled by their (assumed collision-free) pre-image strings.
-/

namespace AccAgent

/-- `scraper.Accommodation`: a candidate record produced by a fetch call. -/
structure Accommodation where
  title : String
  price : ℚ
  currency : String
  rating : ℚ
  location : String
  url : String
  image_url : String
  description : String
  amenities : List String
  platform : String
deriving DecidableEq

/-- `config.SearchCriteria` (dates as epoch seconds). -/
structure SearchCriteria where
  destination : String
  check_in : Int
  check_out : Int
  guests : Nat
  max_price : ℚ
  currency : String
  property_types : List String
  min_rating : ℚ
deriving DecidableEq

/-- Python `str.lower` (character-wise, over the underlying character list). -/
def lowerStr (s : String) : String := ⟨s.data.map Char.toLower⟩

/-- Python `str.strip`: drops leading and trailing whitespace. -/
def stripStr (s : String) : String :=
  ⟨((s.data.dropWhile Char.isWhitespace).reverse.dropWhile Char.isWhitespace).reverse⟩

/-- `database.AccommodationDatabase._create_accommodation_hash`: md5 of the
normalized title/location/platform string; the digest is modelled by the
pre-image itself. -/
def accHash (a : Accommodation) : String :=
  stripStr (lowerStr a.title) ++ "_" ++ stripStr (lowerStr a.location) ++ "_" ++ a.platform

/-- `database.AccommodationDatabase._create_criteria_hash`: hash of every
criteria field except the check-in/check-out dates; the digest is modelled by
the tuple of hashed fields. -/
def criteriaHash (c : SearchCriteria) : String × Nat × ℚ × String × List String × ℚ :=
  (c.destination, c.guests, c.max_price, c.currency, c.property_types, c.min_rating)

/-- A row of the `accommodations` table. -/
structure AccRow where
  id : Nat
  title : String
  price : ℚ
  currency : String
  rating : ℚ
  location : String
  url : String
  image_url : String
  description : String
  amenities : List String
  platform : String
  first_seen : Int
  last_seen : Int
  times_seen : Nat
  acc_hash : String
  is_notified : Bool
deriving DecidableEq

/-- A row of the `price_history` table. -/
structure PriceRow where
  id : Nat
  accommodation_id : Nat
  price : ℚ
  currency : String
  timestamp : Int
deriving DecidableEq

/-- A row of the `searches` table. -/
structure SearchRow where
  id : Nat
  timestamp : Int
  criteria_hash : String × Nat × ℚ × String × List String × ℚ
  results_count : Nat
  execution_time_ms : Int
deriving DecidableEq

/-- The SQLite database state (the tables the claims touch, plus the
auto-increment counters). -/
structure DB where
  accommodations : List AccRow
  price_history : List PriceRow
  searches : List SearchRow
  next_acc_id : Nat
  next_price_id : Nat
  next_search_id : Nat
deriving DecidableEq

def emptyDB : DB :=
  { accommodations := [], price_history := [], searches := [],
    next_acc_id := 0, next_price_id := 0, next_search_id := 0 }

/-- `AccommodationDatabase.save_price_history`: INSERT INTO price_history. -/
def save_price_history (db : DB) (accommodation_id : Nat) (price : ℚ)
    (currency : String) (now : Int) : DB :=
  { db with
      price_history := db.price_history ++
        [{ id := db.next_price_id, accommodation_id := accommodation_id,
           price := price, currency := currency, timestamp := now }],
      next_price_id := db.next_price_id + 1 }

/-- The `SELECT ... WHERE accommodation_hash = ?` lookup in `save_accommodation`. -/
def findByHash (db : DB) (h : String) : Option AccRow :=
  db.accommodations.find? (fun r => r.acc_hash == h)

/-- The row the INSERT branch of `save_accommodation` writes. -/
def newRow (db : DB) (a : Accommodation) (now : Int) : AccRow :=
  { id := db.next_acc_id, title := a.title, price := a.price, currency := a.currency,
    rating := a.rating, location := a.location, url := a.url,
    image_url := a.image_url, description := a.description,
    amenities := a.amenities, platform := a.platform,
    first_seen := now, last_seen := now, times_seen := 1,
    acc_hash := accHash a, is_notified := false }

/-- The first price observation the INSERT branch of `save_accommodation`
appends (via `save_price_history`). -/
def newObs (db : DB) (a : Accommodation) (now : Int) : PriceRow :=
  { id := db.next_price_id, accommodation_id := db.next_acc_id,
    price := a.price, currency := a.currency, timestamp := now }

/-- The UPDATE statement of `save_accommodation`, applied to one row:
touches exactly the rows whose id is the found row's id. -/
def updRow (existing : AccRow) (a : Accommodation) (now : Int) (r : AccRow) : AccRow :=
  if r.id = existing.id then
    { r with last_seen := now, times_seen := r.times_seen + 1,
             price := a.price, currency := a.currency, rating := a.rating }
  else r

/-- `AccommodationDatabase.save_accommodation`: upsert keyed on the identity
hash. On an existing row it appends a price observation only when price or
currency changed, then bumps `last_seen`/`times_seen` and overwrites
price/currency/rating; on a fresh identity it inserts the row and appends the
first observation. Returns the row id. -/
def save_accommodation (db : DB) (a : Accommodation) (now : Int) : Nat × DB :=
  match findByHash db (accHash a) with
  | some existing =>
      let db1 :=
        if existing.price ≠ a.price ∨ existing.currency ≠ a.currency then
          save_price_history db existing.id a.price a.currency now
        else db
      (existing.id,
       { db1 with accommodations := db1.accommodations.map (updRow existing a now) })
  | none =>
      let db1 := { db with accommodations := db.accommodations ++ [newRow db a now],
                           next_acc_id := db.next_acc_id + 1 }
      (db.next_acc_id, save_price_history db1 db.next_acc_id a.price a.currency now)

/-- `AccommodationDatabase.get_new_accommodations`: rows first seen within the
last `hours_back` hours and not yet notified, ordered by `first_seen` DESC. -/
def get_new_accommodations (db : DB) (now : Int) (hours_back : Int) : List AccRow :=
  let cutoff := now - hours_back * 3600
  List.insertionSort (fun r s => s.first_seen ≤ r.first_seen)
    (db.accommodations.filter (fun r => decide (cutoff ≤ r.first_seen) && !r.is_notified))

/-- `AccommodationDatabase.mark_as_notified`: sets `is_notified` on the given
ids; early-returns on an empty id list. -/
def mark_as_notified (db : DB) (ids : List Nat) : DB :=
  if ids = [] then db
  else
    { db with
        accommodations := db.accommodations.map (fun r =>
          if r.id ∈ ids then { r with is_notified := true } else r) }

/-- `AccommodationDatabase.save_search_record`: INSERT INTO searches. -/
def save_search_record (db : DB) (c : SearchCriteria) (results_count : Nat)
    (execution_time_ms : Int) (now : Int) : Nat × DB :=
  (db.next_search_id,
   { db with
       searches := db.searches ++
         [{ id := db.next_search_id, timestamp := now, criteria_hash := criteriaHash c,
            results_count := results_count, execution_time_ms := execution_time_ms }],
       next_search_id := db.next_search_id + 1 })

/-- One row of the result set of `get_price_drops`. -/
structure DropReport where
  id : Nat
  title : String
  location : String
  platform : String
  current_price : ℚ
  currency : String
  previous_price : ℚ
  current_time : Int
  previous_time : Int
  price_drop_percentage : ℚ
deriving DecidableEq

/-- The SELECT expression list of the `price_changes` CTE for one joined pair. -/
def mkDropReport (a : AccRow) (ph1 ph2 : PriceRow) : DropReport :=
  { id := a.id, title := a.title, location := a.location, platform := a.platform,
    current_price := ph1.price, currency := ph1.currency,
    previous_price := ph2.price,
    current_time := ph1.timestamp, previous_time := ph2.timestamp,
    price_drop_percentage := (ph2.price - ph1.price) / ph2.price * 100 }

/-- The `price_changes` CTE of `get_price_drops`: the self-join of
`price_history` on `accommodations`, one row per pair (ph1, ph2) of
observations of the same item with `ph2.timestamp < ph1.timestamp`,
ph1 within the last 7 days and ph2 within the last 14 days. -/
def dropPairs (db : DB) (now : Int) : List DropReport :=
  db.accommodations.flatMap (fun a =>
    db.price_history.flatMap (fun ph1 =>
      (db.price_history.filter (fun ph2 =>
          ph1.accommodation_id == a.id && ph2.accommodation_id == a.id &&
          decide (ph2.timestamp < ph1.timestamp) &&
          decide (now - 7 * 86400 ≤ ph1.timestamp) &&
          decide (now - 14 * 86400 ≤ ph2.timestamp))).map (fun ph2 =>
        mkDropReport a ph1 ph2)))

/-- `AccommodationDatabase.get_price_drops`: keeps the joined pairs whose drop
percentage meets the threshold, ordered by drop percentage descending. -/
def get_price_drops (db : DB) (percentage_threshold : ℚ) (now : Int) : List DropReport :=
  List.insertionSort (fun x y => y.price_drop_percentage ≤ x.price_drop_percentage)
    ((dropPairs db now).filter (fun r => decide (percentage_threshold ≤ r.price_drop_percentage)))

/-- `AccommodationDatabase.get_accommodation_by_id` (the selected row). -/
def get_accommodation_by_id (db : DB) (i : Nat) : Option AccRow :=
  db.accommodations.find? (fun r => r.id == i)

/-- The price observations of item `i`: the rows of `price_history` that
reference it, in insertion order. -/
def histOf (db : DB) (i : Nat) : List PriceRow :=
  db.price_history.filter (fun p => p.accommodation_id == i)

/-- `AccommodationDatabase._row_to_accommodation`. -/
def rowToAccommodation (r : AccRow) : Accommodation :=
  { title := r.title, price := r.price, currency := r.currency, rating := r.rating,
    location := r.location, url := r.url, image_url := r.image_url,
    description := r.description, amenities := r.amenities, platform := r.platform }

/-! ## Scheduler (scheduler.py) -/

/-- `scheduler.ScheduledTask`. -/
structure ScheduledTask where
  name : String
  interval_type : String
  interval_value : Int
  next_run : Int
  last_run : Option Int
  is_running : Bool
  enabled : Bool
deriving DecidableEq

/-- `AccommodationScheduler._calculate_next_run`: completion-time now plus the
cadence, with a one-hour fallback for an unknown interval unit. -/
def calculate_next_run (task : ScheduledTask) (now : Int) : Int :=
  if task.interval_type = "minutes" then now + 60 * task.interval_value
  else if task.interval_type = "hours" then now + 3600 * task.interval_value
  else if task.interval_type = "days" then now + 86400 * task.interval_value
  else now + 3600

/-- The dispatch condition of one `_scheduler_loop` iteration for one task:
enabled, not running, and due. -/
def taskDue (task : ScheduledTask) (now : Int) : Bool :=
  task.enabled && !task.is_running && decide (task.next_run ≤ now)

/-- `AccommodationScheduler._run_task`, run to completion: the guard line, the
flag set, the function body (whose outcome — normal return or raised
exception — is supplied by the environment), and the `finally` block. Returns
the updated task and whether the function body was invoked. -/
def runTask (task : ScheduledTask) (outcome : Except String Unit)
    (startTime doneTime : Int) : ScheduledTask × Bool :=
  if ¬ task.enabled ∨ task.is_running then (task, false)
  else
    let t1 := { task with is_running := true, last_run := some startTime }
    let t2 :=
      match outcome with
      | .ok _ => t1        -- task.function() returned
      | .error _ => t1     -- exception caught and logged at the dispatch boundary
    ({ t2 with is_running := false, next_run := calculate_next_run t2 doneTime }, true)

/-- One `_scheduler_loop` iteration in which every dispatched worker runs to
completion, with a per-task function outcome chosen by the environment.
Returns the updated task list and the names of the dispatched tasks. -/
def tickRun (tasks : List ScheduledTask) (now doneTime : Int)
    (outcomes : String → Except String Unit) : List ScheduledTask × List String :=
  (tasks.map (fun t => if taskDue t now then (runTask t (outcomes t.name) now doneTime).1 else t),
   (tasks.filter (fun t => taskDue t now)).map (fun t => t.name))

/-- `scheduler.AccommodationScheduler` (the fields the loop reads). -/
structure SchedulerState where
  tasks : List ScheduledTask
  is_running : Bool

/-- One wake-up of the scheduler thread: the `while self.is_running` loop body. -/
def schedTick (s : SchedulerState) (now doneTime : Int)
    (outcomes : String → Except String Unit) : SchedulerState :=
  if s.is_running then { s with tasks := (tickRun s.tasks now doneTime outcomes).1 } else s

/-! ### Fine-grained interleaving model of the loop and the worker threads

`_scheduler_loop` checks `task.is_running` and then starts a thread; the flag
is set only inside the worker, in `_run_task`. The statements of `_run_task`
are therefore separate interleaving points: the guard read, the flag write,
and the `finally` block. -/

/-- Progress of one spawned worker thread through `_run_task`. -/
inductive WorkerPhase
  | spawned      -- `threading.Thread.start()` returned; `_run_task` not yet entered
  | passedCheck  -- the guard saw `enabled` and `is_running = False`
  | body         -- `is_running := True` done; `task.function()` executing
  | finished     -- returned from `_run_task` (early or via `finally`)
deriving DecidableEq, BEq

/-- The single scheduled task together with its spawned workers. -/
structure LoopState where
  task : ScheduledTask
  workers : List WorkerPhase
deriving DecidableEq

/-- One atomic step of the loop thread or of one worker thread. -/
inductive SchedEvent
  | tick (now : Int)                    -- one loop iteration over this task
  | workerCheck (i : Nat)               -- worker i executes the guard line
  | workerSet (i : Nat) (now : Int)     -- worker i sets `is_running`, `last_run`
  | workerFinish (i : Nat) (now : Int)  -- worker i's function ends; `finally` runs

def schedStep (s : LoopState) (ev : SchedEvent) : LoopState :=
  match ev with
  | .tick now =>
      if taskDue s.task now then { s with workers := s.workers ++ [.spawned] } else s
  | .workerCheck i =>
      if s.workers.get? i = some .spawned then
        if ¬ s.task.enabled ∨ s.task.is_running then
          { s with workers := s.workers.set i .finished }
        else { s with workers := s.workers.set i .passedCheck }
      else s
  | .workerSet i now =>
      if s.workers.get? i = some .passedCheck then
        { task := { s.task with is_running := true, last_run := some now },
          workers := s.workers.set i .body }
      else s
  | .workerFinish i now =>
      if s.workers.get? i = some .body then
        { task := { s.task with
            is_running := false,
            next_run := calculate_next_run s.task now },
          workers := s.workers.set i .finished }
      else s

def schedRun (s : LoopState) (evs : List SchedEvent) : LoopState :=
  evs.foldl schedStep s

/-- The default search task (TaskBuilder.search_task) at its initial state:
`next_run = now` from `ScheduledTask.__post_init__`, taken as time 0. -/
def searchTask0 : ScheduledTask :=
  { name := "accommodation_search", interval_type := "hours", interval_value := 6,
    next_run := 0, last_run := none, is_running := false, enabled := true }

/-- An interleaving in which the worker spawned by the first tick is delayed
past the next 30-second tick: both ticks observe `is_running = False` and
`next_run` unchanged, and both workers pass the guard before either sets the
flag. -/
def raceTrace : List SchedEvent :=
  [.tick 0, .tick 30, .workerCheck 0, .workerCheck 1, .workerSet 0 31, .workerSet 1 32]

/-! ## Email notification (email_notifier.py) -/

/-- `config.EmailConfig`; `None` models the unset/falsy fields that
`_send_email`'s `all([...])` validation rejects. -/
structure EmailConfig where
  smtp_server : String
  smtp_port : Nat
  email : Option String
  password : Option String
  recipient : Option String
deriving DecidableEq

/-- `EmailNotifier._send_email`. The SMTP exchange is external; its outcome
(normal completion, or a raised `smtplib` error) is supplied by the
environment. Every raised error is caught by one of the except arms, so the
call always returns a boolean: `False` on incomplete configuration or on any
raised error, `True` on a completed send. -/
def send_email (cfg : EmailConfig) (smtp : Except String Unit) : Bool :=
  if cfg.email = none ∨ cfg.password = none ∨ cfg.recipient = none then false
  else
    match smtp with
    | .ok _ => true
    | .error _ => false

/-- `EmailNotifier.send_accommodation_alert`: returns `True` on an empty batch
without sending. -/
def send_accommodation_alert (cfg : EmailConfig) (smtp : Except String Unit)
    (accs : List Accommodation) : Bool :=
  if accs.isEmpty then true else send_email cfg smtp

/-- `EmailNotifier.send_price_alert`. -/
def send_price_alert (cfg : EmailConfig) (smtp : Except String Unit)
    (accs : List Accommodation) : Bool :=
  if accs.isEmpty then true else send_email cfg smtp

/-- The key of `NotificationManager.sent_accommodations`:
the f-string over title, location and price. -/
def sentKey (a : Accommodation) : String × String × ℚ :=
  (a.title, a.location, a.price)

/-- `email_notifier.NotificationManager` (its in-process dedup set). -/
structure NotificationManager where
  sent_accommodations : List (String × String × ℚ)
deriving DecidableEq

/-- `NotificationManager.should_send_notification`: records every unseen key
into the set and reports whether any key was new. -/
def should_send_notification (m : NotificationManager) (accs : List Accommodation) :
    Bool × NotificationManager :=
  let res := accs.foldl
    (fun (st : List Accommodation × NotificationManager) a =>
      if sentKey a ∈ st.2.sent_accommodations then st
      else (st.1 ++ [a], ⟨st.2.sent_accommodations ++ [sentKey a]⟩))
    ([], m)
  (!res.1.isEmpty, res.2)

/-- `NotificationManager.send_if_needed`. -/
def send_if_needed (cfg : EmailConfig) (smtp : Except String Unit)
    (m : NotificationManager) (accs : List Accommodation) : Bool × NotificationManager :=
  let sn := should_send_notification m accs
  (if sn.1 then send_accommodation_alert cfg smtp accs else true, sn.2)

/-! ## Orchestrator (main.py) -/

/-- `filter.PriceAlert.check_alerts`. -/
def check_alerts (target_price : ℚ) (alert_currency : String)
    (accs : List Accommodation) : List Accommodation :=
  accs.filter (fun a => a.currency == alert_currency && decide (a.price ≤ target_price))

/-- The state `AccommodationAgent` threads through a pass: the database and the
notification manager's dedup set. -/
structure AgentState where
  db : DB
  manager : NotificationManager
deriving DecidableEq

/-- Step 3 of `search_and_process`: save every filtered candidate. -/
def saveAll (db : DB) (accs : List Accommodation) (now : Int) : DB :=
  accs.foldl (fun d a => (save_accommodation d a now).2) db

/-- The notify-then-mark block of step 5: on notify success, each new
accommodation is saved once more (to recover its id) and the collected ids are
marked notified. -/
def saveAllIds (db : DB) (accs : List Accommodation) (now : Int) : List Nat × DB :=
  accs.foldl
    (fun (p : List Nat × DB) a =>
      let r := save_accommodation p.2 a now
      (p.1 ++ [r.1], r.2))
    ([], db)

/-- Step 5 of `search_and_process`: query the new accommodations; if any, run
`send_if_needed`; on success save each new accommodation once more to recover
its id and mark the collected ids notified. -/
def notifyStep (cfg : EmailConfig) (smtp : Except String Unit)
    (m : NotificationManager) (db1 : DB) (now : Int) : DB × NotificationManager :=
  let newRows := get_new_accommodations db1 now 24
  if newRows.isEmpty then (db1, m)
  else
    let newAccs := newRows.map rowToAccommodation
    let sn := send_if_needed cfg smtp m newAccs
    if sn.1 then
      let ids := saveAllIds db1 newAccs now
      (mark_as_notified ids.2 ids.1, sn.2)
    else (db1, sn.2)

/-- `AccommodationAgent.search_and_process`, one pass. External collaborators
are supplied by the environment: `raw` is the `search_all_platforms` result,
`filtered_of` is `AccommodationFilter.apply_all_filters` (stateless,
out-of-scope per the spec), and `smtp_new` / `smtp_price` are the SMTP
outcomes of the two notify calls. `target_price` is
`PriceAlert(max_price * 0.8)`. Returns the updated agent state and the list
the pass returns. Store operations are total in this model, so the
surrounding `try/except` of the pass has no failing path to catch; the notify
calls return booleans and never raise (their errors are caught inside
email_notifier). -/
def search_and_process (cfg : EmailConfig) (criteria : SearchCriteria)
    (target_price : ℚ) (raw : List Accommodation)
    (filtered_of : List Accommodation → List Accommodation)
    (smtp_new smtp_price : Except String Unit)
    (st : AgentState) (now : Int) (execution_time_ms : Int) :
    AgentState × List Accommodation :=
  if raw.isEmpty then (st, [])
  else
    let filtered := filtered_of raw
    if filtered.isEmpty then (st, [])
    else
      -- 3. save to the database
      let db1 := saveAll st.db filtered now
      -- 4. price alerts
      let alerts := check_alerts target_price criteria.currency filtered
      -- 5. notify for new accommodations
      let afterNotify := notifyStep cfg smtp_new st.manager db1 now
      -- 6. price-alert email (result ignored)
      let _pa := if alerts.isEmpty then true else send_price_alert cfg smtp_price alerts
      -- 7. record the search
      let db3 := (save_search_record afterNotify.1 criteria filtered.length
        execution_time_ms now).2
      ({ db := db3, manager := afterNotify.2 }, filtered)

/-! ## Concrete data used by the scenario theorems -/

def candA : Accommodation :=
  { title := "Hotel Aurora", price := 300, currency := "RON", rating := 8,
    location := "Bucuresti", url := "u1", image_url := "", description := "",
    amenities := [], platform := "booking" }

def candB : Accommodation :=
  { title := "Casa Brad", price := 250, currency := "RON", rating := 9,
    location := "Brasov", url := "u2", image_url := "", description := "",
    amenities := [], platform := "booking" }

/-- `candA` observed again with a lower price (same identity). -/
def candA260 : Accommodation := { candA with price := 260 }

def cfgOk : EmailConfig :=
  { smtp_server := "smtp", smtp_port := 587, email := some "a", password := some "p",
    recipient := some "r" }

def criteria0 : SearchCriteria :=
  { destination := "Bucuresti", check_in := 0, check_out := 0, guests := 2,
    max_price := 500, currency := "RON", property_types := ["hotel"], min_rating := 7 }

/-- First end-to-end pass of the C2 scenario: fetch yields a duplicate
identity pair plus one unique candidate, the filter drops none, both SMTP
sends succeed. -/
def pass1 : AgentState × List Accommodation :=
  search_and_process cfgOk criteria0 400 [candA, candA, candB]
    (fun l => l) (.ok ()) (.ok ()) { db := emptyDB, manager := ⟨[]⟩ } 1000000 5

/-- Second, identical pass one hour later. -/
def pass2 : AgentState × List Accommodation :=
  search_and_process cfgOk criteria0 400 [candA, candA, candB]
    (fun l => l) (.ok ()) (.ok ()) pass1.1 1003600 5

/-- A tracked item with three price observations inside the 7-day window
(100 then 90 then 80 RON). -/
def exAcc : AccRow :=
  { id := 0, title := "Hotel Aurora", price := 80, currency := "RON", rating := 8,
    location := "Bucuresti", url := "", image_url := "", description := "",
    amenities := [], platform := "booking", first_seen := 0, last_seen := 0,
    times_seen := 3, acc_hash := "hotel aurora_bucuresti_booking", is_notified := false }

def exNow : Int := 15 * 86400

def exDB : DB :=
  { accommodations := [exAcc],
    price_history :=
      [ { id := 0, accommodation_id := 0, price := 100, currency := "RON",
          timestamp := exNow - 6 * 86400 },
        { id := 1, accommodation_id := 0, price := 90, currency := "RON",
          timestamp := exNow - 4 * 86400 },
        { id := 2, accommodation_id := 0, price := 80, currency := "RON",
          timestamp := exNow - 1 * 86400 } ],
    searches := [], next_acc_id := 1, next_price_id := 3, next_search_id := 0 }

/-- A store that already tracks `candA`'s identity with two price
observations (300 then 260). -/
def sState : DB :=
  (save_accommodation (save_accommodation emptyDB candA 10).2 candA260 20).2

/-- The store of the C6 scenario after `upsert(A)` on an empty store. -/
def dbA : DB := (save_accommodation emptyDB candA 1000000).2


/-- Replay a list of (timestamp, candidate) upserts against a store. -/
def runUpserts (db : DB) (steps : List (Int × Accommodation)) : DB :=
  steps.foldl (fun d s => (save_accommodation d s.2 s.1).2) db

/-- Well-formedness of the store, relative to a clock bound: every row id and
observation reference is below the auto-increment counter, observation
timestamps are below the bound, per-item observation timestamps strictly
increase, row ids are pairwise distinct, and each row's current
price/currency equals its most recent observation's. -/
structure Wf (db : DB) (bound : Int) : Prop where
  ids_lt : ∀ r ∈ db.accommodations, r.id < db.next_acc_id
  obs_ids_lt : ∀ p ∈ db.price_history, p.accommodation_id < db.next_acc_id
  ts_lt : ∀ p ∈ db.price_history, p.timestamp < bound
  chains : ∀ i : Nat,
    ((histOf db i).map (fun p => p.timestamp)).Chain' (· < ·)
  nodup_ids : db.accommodations.Pairwise (fun r s => r.id ≠ s.id)
  last_matches : ∀ r ∈ db.accommodations, ∃ p, (histOf db r.id).getLast? = some p ∧
      p.price = r.price ∧ p.currency = r.currency

def listMax (l : List Int) : Int := l.foldr max 0

instance : IsTotal DropReport (fun x y => y.price_drop_percentage ≤ x.price_drop_percentage) :=
  ⟨fun a b => le_total b.price_drop_percentage a.price_drop_percentage⟩

instance : IsTrans DropReport (fun x y => y.price_drop_percentage ≤ x.price_drop_percentage) :=
  ⟨fun _ _ _ hxy hyz => le_trans hyz hxy⟩

/-! ## Theorems -/

/-! ### Helper lemmas about the store operations -/

theorem find?_id_none (l : List AccRow) (n : Nat) (h : ∀ r ∈ l, r.id < n) :
    l.find? (fun r => r.id == n) = none := by
  rw [List.find?_eq_none]
  intro r hr
  simp [Nat.ne_of_lt (h r hr)]

theorem filter_id_nil (l : List PriceRow) (n : Nat) (h : ∀ p ∈ l, p.accommodation_id < n) :
    l.filter (fun p => p.accommodation_id == n) = [] := by
  rw [List.filter_eq_nil_iff]
  intro p hp
  simp [Nat.ne_of_lt (h p hp)]

/-- The INSERT branch of `save_accommodation`, as an equation. -/
theorem save_acc_none (db : DB) (a : Accommodation) (t : Int)
    (habs : findByHash db (accHash a) = none) :
    save_accommodation db a t =
      (db.next_acc_id,
       { accommodations := db.accommodations ++ [newRow db a t],
         price_history := db.price_history ++ [newObs db a t],
         searches := db.searches,
         next_acc_id := db.next_acc_id + 1,
         next_price_id := db.next_price_id + 1,
         next_search_id := db.next_search_id }) := by
  rw [save_accommodation, habs]
  rfl

/-- The UPDATE branch with unchanged price and currency: no observation. -/
theorem save_acc_some_eq (db : DB) (a : Accommodation) (t : Int) (r : AccRow)
    (hfind : findByHash db (accHash a) = some r)
    (hp : r.price = a.price) (hc : r.currency = a.currency) :
    save_accommodation db a t =
      (r.id, { db with accommodations := db.accommodations.map (updRow r a t) }) := by
  rw [save_accommodation, hfind]
  simp [hp, hc]

/-- The UPDATE branch with changed price or currency: one appended observation. -/
theorem save_acc_some_ne (db : DB) (a : Accommodation) (t : Int) (r : AccRow)
    (hfind : findByHash db (accHash a) = some r)
    (hne : r.price ≠ a.price ∨ r.currency ≠ a.currency) :
    save_accommodation db a t =
      (r.id,
       { accommodations := db.accommodations.map (updRow r a t),
         price_history := db.price_history ++
           [{ id := db.next_price_id, accommodation_id := r.id,
              price := a.price, currency := a.currency, timestamp := t }],
         searches := db.searches,
         next_acc_id := db.next_acc_id,
         next_price_id := db.next_price_id + 1,
         next_search_id := db.next_search_id }) := by
  rw [save_accommodation, hfind]
  simp only [if_pos hne, save_price_history]

/-- `updRow` leaves every row with a different id unchanged. -/
theorem map_updRow_keep (row : AccRow) (a : Accommodation) (t : Int) (l : List AccRow)
    (hl : ∀ r ∈ l, r.id ≠ row.id) : l.map (updRow row a t) = l := by
  induction l with
  | nil => rfl
  | cons x xs ih =>
      rw [List.map_cons, ih (fun r hr => hl r (List.mem_cons_of_mem x hr))]
      have hx : x.id ≠ row.id := hl x (List.mem_cons_self x xs)
      simp [updRow, hx]

/-- C10: for every scheduled task whose `interval_type` is not one of
"minutes", "hours" or "days", `_calculate_next_run` silently falls back to
one hour from now rather than rejecting the unknown cadence unit. -/
theorem C10_unknown_interval_fallback (task : ScheduledTask) (now : Int)
    (h1 : task.interval_type ≠ "minutes") (h2 : task.interval_type ≠ "hours")
    (h3 : task.interval_type ≠ "days") :
    calculate_next_run task now = now + 3600 := by
  simp [calculate_next_run, h1, h2, h3]

theorem C10_witness :
    ({ searchTask0 with interval_type := "weeks" } : ScheduledTask).interval_type ≠ "minutes" ∧
    ({ searchTask0 with interval_type := "weeks" } : ScheduledTask).interval_type ≠ "hours" ∧
    ({ searchTask0 with interval_type := "weeks" } : ScheduledTask).interval_type ≠ "days" ∧
    calculate_next_run { searchTask0 with interval_type := "weeks" } 100 = 100 + 3600 :=
  ⟨by decide, by decide, by decide,
   C10_unknown_interval_fallback { searchTask0 with interval_type := "weeks" } 100
     (by decide) (by decide) (by decide)⟩

/-- C8: for every task execution, whether the function body returns or raises,
at completion the task is no longer running and its `next_run` is recomputed
from the completion-time clock plus the cadence — independent of the
previously scheduled time, so a slow task pushes its own schedule back. -/
theorem C8_reschedule_at_completion (task : ScheduledTask)
    (outcome : Except String Unit) (startTime doneTime : Int)
    (hen : task.enabled = true) (hnr : task.is_running = false) :
    ((runTask task outcome startTime doneTime).1.is_running = false) ∧
    ((runTask task outcome startTime doneTime).1.next_run
        = calculate_next_run task doneTime) ∧
    (∀ x : Int, (runTask { task with next_run := x } outcome startTime doneTime).1.next_run
        = (runTask task outcome startTime doneTime).1.next_run) ∧
    (task.interval_type = "hours" →
      (runTask task outcome startTime doneTime).1.next_run
          = doneTime + 3600 * task.interval_value) := by
  cases outcome with
  | ok u =>
      refine ⟨?_, ?_, ?_, ?_⟩ <;>
        simp [runTask, calculate_next_run, hen, hnr]
      intro h
      simp [h]
  | error e =>
      refine ⟨?_, ?_, ?_, ?_⟩ <;>
        simp [runTask, calculate_next_run, hen, hnr]
      intro h
      simp [h]

theorem C8_witness :
    searchTask0.enabled = true ∧ searchTask0.is_running = false ∧
    (((runTask searchTask0 (Except.error "boom") 40 7300).1.is_running = false) ∧
     ((runTask searchTask0 (Except.error "boom") 40 7300).1.next_run
         = calculate_next_run searchTask0 7300) ∧
     (∀ x : Int, (runTask { searchTask0 with next_run := x } (Except.error "boom") 40 7300).1.next_run
         = (runTask searchTask0 (Except.error "boom") 40 7300).1.next_run) ∧
     (searchTask0.interval_type = "hours" →
       (runTask searchTask0 (Except.error "boom") 40 7300).1.next_run
           = 7300 + 3600 * searchTask0.interval_value)) :=
  ⟨rfl, rfl, C8_reschedule_at_completion searchTask0 (Except.error "boom") 40 7300 rfl rfl⟩

/-- C7: a task function raising an arbitrary exception is caught at the
dispatch boundary: the scheduler loop keeps running, the set of tasks a tick
dispatches is independent of every task's outcome, and the failing task itself
is invoked and returns to the idle (not running) state. -/
theorem C7_failure_isolation (s : SchedulerState) (now doneTime : Int)
    (oc oc' : String → Except String Unit) (hrun : s.is_running = true) :
    ((schedTick s now doneTime oc).is_running = true) ∧
    ((tickRun s.tasks now doneTime oc).2 = (tickRun s.tasks now doneTime oc').2) ∧
    (∀ t ∈ s.tasks, taskDue t now = true → ∀ e : String,
       ((runTask t (Except.error e) now doneTime).1.is_running = false) ∧
       ((runTask t (Except.error e) now doneTime).2 = true)) := by
  refine ⟨?_, rfl, ?_⟩
  · simp [schedTick, hrun]
  · intro t _ht hdue e
    have h := hdue
    simp [taskDue, Bool.and_eq_true] at h
    obtain ⟨⟨hen, hnr⟩, -⟩ := h
    constructor <;> simp [runTask, hen, hnr]

theorem C7_witness :
    (SchedulerState.mk [searchTask0] true).is_running = true ∧
    (((schedTick (SchedulerState.mk [searchTask0] true) 0 1
          (fun _ => Except.error "boom")).is_running = true) ∧
     ((tickRun [searchTask0] 0 1 (fun _ => Except.error "boom")).2
         = (tickRun [searchTask0] 0 1 (fun _ => Except.ok ())).2) ∧
     (∀ t ∈ [searchTask0], taskDue t 0 = true → ∀ e : String,
        ((runTask t (Except.error e) 0 1).1.is_running = false) ∧
        ((runTask t (Except.error e) 0 1).2 = true))) :=
  ⟨rfl, C7_failure_isolation (SchedulerState.mk [searchTask0] true) 0 1
      (fun _ => Except.error "boom") (fun _ => Except.ok ()) rfl⟩

/-- C3 (the code violates the claim): under the interleaving `raceTrace` — the
worker spawned by the first tick delayed past the second 30-second tick, so
both ticks and then both worker guards observe `is_running = False` — the
single task `accommodation_search` ends with two workers concurrently
executing its function body. The flag is set in `_run_task` on the worker
thread, after the loop's check, so the loop's check-and-set is not atomic. -/
theorem C3_concurrent_dispatch_race :
    ((schedRun { task := searchTask0, workers := [] } raceTrace).workers.count
        WorkerPhase.body) = 2 := by
  decide

/-- The evaluated result of `get_price_drops` on `exDB`: three reports, all
for item 0, with drops 20%, 100/9 % and 10%. -/
theorem drops_exDB_eval : get_price_drops exDB 10 exNow =
    [ { id := 0, title := "Hotel Aurora", location := "Bucuresti", platform := "booking",
        current_price := 80, currency := "RON", previous_price := 100,
        current_time := 1209600, previous_time := 777600,
        price_drop_percentage := 20 },
      { id := 0, title := "Hotel Aurora", location := "Bucuresti", platform := "booking",
        current_price := 80, currency := "RON", previous_price := 90,
        current_time := 1209600, previous_time := 950400,
        price_drop_percentage := 100 / 9 },
      { id := 0, title := "Hotel Aurora", location := "Bucuresti", platform := "booking",
        current_price := 90, currency := "RON", previous_price := 100,
        current_time := 950400, previous_time := 777600,
        price_drop_percentage := 10 } ] := by
  norm_num [get_price_drops, dropPairs, exDB, exAcc, exNow, mkDropReport,
    List.insertionSort, List.orderedInsert, List.filter, List.flatMap]

/-- C1 (refuted as stated): on a store whose single item has three price
observations inside the 7-day window (100, 90, 80 RON), `get_price_drops 10`
returns three reports for that one item — not at most one report comparing
only the two most recent observations. -/
theorem C1_counterexample :
    ¬ (((get_price_drops exDB 10 exNow).countP (fun r => r.id == 0)) ≤ 1) := by
  rw [drops_exDB_eval]
  decide

/-- C1 amended: `get_price_drops` joins every pair (newer, older) of price
observations of the same item with the newer one inside the last 7 days, the
older inside the last 14 days and strictly before the newer; each pair whose
drop `(old-new)/old*100` meets the threshold yields its own report (so one
item can appear several times), and the result is ordered by drop percentage
descending. -/
theorem C1_price_drops_all_pairs (db : DB) (now : Int) (threshold : ℚ) :
    (∀ r : DropReport, r ∈ get_price_drops db threshold now ↔
        ∃ a ∈ db.accommodations, ∃ ph1 ∈ db.price_history, ∃ ph2 ∈ db.price_history,
          ph1.accommodation_id = a.id ∧ ph2.accommodation_id = a.id ∧
          ph2.timestamp < ph1.timestamp ∧
          now - 7 * 86400 ≤ ph1.timestamp ∧ now - 14 * 86400 ≤ ph2.timestamp ∧
          threshold ≤ (ph2.price - ph1.price) / ph2.price * 100 ∧
          r = mkDropReport a ph1 ph2) ∧
    (get_price_drops db threshold now).Sorted
      (fun x y => y.price_drop_percentage ≤ x.price_drop_percentage) := by
  constructor
  · intro r
    rw [get_price_drops, List.mem_insertionSort, List.mem_filter]
    constructor
    · rintro ⟨hmem, hthr⟩
      rw [dropPairs] at hmem
      simp only [List.mem_flatMap, List.mem_map, List.mem_filter,
        Bool.and_eq_true, beq_iff_eq, decide_eq_true_iff] at hmem
      obtain ⟨a, ha, ph1, hph1, ph2, ⟨hph2, ⟨⟨⟨⟨h1, h2⟩, h3⟩, h4⟩, h5⟩⟩, hr⟩ := hmem
      refine ⟨a, ha, ph1, hph1, ph2, hph2, h1, h2, h3, h4, h5, ?_, hr.symm⟩
      rw [decide_eq_true_iff] at hthr
      rw [← hr] at hthr
      exact hthr
    · rintro ⟨a, ha, ph1, hph1, ph2, hph2, h1, h2, h3, h4, h5, hthr, hr⟩
      constructor
      · rw [dropPairs]
        simp only [List.mem_flatMap, List.mem_map, List.mem_filter,
          Bool.and_eq_true, beq_iff_eq, decide_eq_true_iff]
        exact ⟨a, ha, ph1, hph1, ph2, ⟨hph2, ⟨⟨⟨⟨h1, h2⟩, h3⟩, h4⟩, h5⟩⟩, hr.symm⟩
      · rw [decide_eq_true_iff, hr]
        exact hthr
  · exact List.sorted_insertionSort _ _

/-- C2 (refuted as stated): in the stipulated scenario — fetch returns a
duplicate identity pair plus one unique candidate, the filter drops none,
notify succeeds — after the second identical pass `times_seen` is 5 for the
duplicated item and 3 for the unique one, not exactly 2 for both. -/
theorem C2_counterexample :
    ¬ (pass2.1.db.accommodations.map (fun r => r.times_seen) = [2, 2]) := by
  decide

/-- C2 amended: in that scenario the first pass leaves 2 TrackedItems and the
mid-pass `newSince` query returns both; after the successful notify each new
item is saved once more and marked notified, so pass 1 ends with `times_seen`
3 (duplicated item) and 2 (unique item); the second identical pass finds
nothing new (`newSince` empty) and ends with `times_seen` 5 and 3: the save
step runs once per candidate occurrence, plus one extra save per item on
successful notification. -/
theorem C2_two_pass_scenario :
    ((saveAll emptyDB [candA, candA, candB] 1000000).accommodations.length = 2) ∧
    ((get_new_accommodations (saveAll emptyDB [candA, candA, candB] 1000000) 1000000 24).map
        (fun r => r.id) = [0, 1]) ∧
    (pass1.1.db.accommodations.map (fun r => (r.times_seen, r.is_notified))
        = [(3, true), (2, true)]) ∧
    (get_new_accommodations pass2.1.db 1003600 24 = []) ∧
    (pass2.1.db.accommodations.map (fun r => (r.times_seen, r.is_notified))
        = [(5, true), (3, true)]) := by
  exact ⟨by decide, by decide, by decide, by decide, by decide⟩

/-- C6: for every window duration, `get_new_accommodations` returns exactly
the rows whose `first_seen` falls within the window and whose notified flag
is false; `mark_as_notified` is a no-op on empty input and idempotent; and in
the concrete scenario — empty store, `upsert(A)` — the 24h query returns
exactly the tracked item A, and returns nothing after
`mark_as_notified [A.id]`. -/
theorem C6_new_item_detection :
    (∀ (db : DB) (now hours_back : Int) (r : AccRow),
        r ∈ get_new_accommodations db now hours_back ↔
          r ∈ db.accommodations ∧ now - hours_back * 3600 ≤ r.first_seen ∧
            r.is_notified = false) ∧
    (∀ db : DB, mark_as_notified db [] = db) ∧
    (∀ (db : DB) (ids : List Nat),
        mark_as_notified (mark_as_notified db ids) ids = mark_as_notified db ids) ∧
    (get_new_accommodations dbA 1000000 24 = dbA.accommodations) ∧
    (get_new_accommodations (mark_as_notified dbA [0]) 1000000 24 = []) := by
  refine ⟨?_, ?_, ?_, by decide, by decide⟩
  · intro db now hours_back r
    rw [get_new_accommodations, List.mem_insertionSort, List.mem_filter]
    simp [and_assoc]
  · intro db
    simp [mark_as_notified]
  · intro db ids
    by_cases h : ids = []
    · simp [mark_as_notified, h]
    · simp only [mark_as_notified, if_neg h, List.map_map]
      congr 1
      refine List.map_congr_left ?_
      intro r _
      by_cases hid : r.id ∈ ids <;> simp [hid]

/-- C4 (refuted as stated): from a store state that already tracks the
candidate's identity with two price observations (300 then 260 RON), two
further upserts of the identical candidate leave two price observations for
the item in total, not exactly one. -/
theorem C4_counterexample :
    ((histOf (save_accommodation ((save_accommodation sState candA260 30).2) candA260 40).2
        0).length = 2) ∧
    ¬ ((histOf (save_accommodation ((save_accommodation sState candA260 30).2) candA260 40).2
        0).length = 1) := by
  exact ⟨by decide, by decide⟩

/-- C4 amended: for every candidate and every store state whose rows and
observations reference only already-assigned ids and which does not yet track
the candidate's identity, two successive upserts of the identical candidate
return the same id both times, leave `times_seen` at 1 after the first call
and 2 after the second, and leave exactly one price observation in total for
that item (the second call appends none, since price and currency are
unchanged). -/
theorem C4_upsert_idempotence (db : DB) (a : Accommodation) (t1 t2 : Int)
    (habs : findByHash db (accHash a) = none)
    (hacc : ∀ r ∈ db.accommodations, r.id < db.next_acc_id)
    (hph : ∀ p ∈ db.price_history, p.accommodation_id < db.next_acc_id) :
    ((save_accommodation db a t1).1 = db.next_acc_id) ∧
    ((save_accommodation (save_accommodation db a t1).2 a t2).1 = db.next_acc_id) ∧
    ((get_accommodation_by_id (save_accommodation db a t1).2 db.next_acc_id).map
        (fun r => r.times_seen) = some 1) ∧
    ((get_accommodation_by_id (save_accommodation (save_accommodation db a t1).2 a t2).2
        db.next_acc_id).map (fun r => r.times_seen) = some 2) ∧
    ((histOf (save_accommodation (save_accommodation db a t1).2 a t2).2
        db.next_acc_id).length = 1) := by
  have h1 := save_acc_none db a t1 habs
  have hfind1 : findByHash (save_accommodation db a t1).2 (accHash a) = some (newRow db a t1) := by
    rw [h1]
    show ((db.accommodations ++ [newRow db a t1]).find? (fun r => r.acc_hash == accHash a))
        = some (newRow db a t1)
    rw [List.find?_append, List.find?_eq_none.mpr, Option.none_or]
    · simp [newRow]
    · intro r hr
      have hn : db.accommodations.find? (fun r => r.acc_hash == accHash a) = none := habs
      rw [List.find?_eq_none] at hn
      exact hn r hr
  have h2 := save_acc_some_eq (save_accommodation db a t1).2 a t2 (newRow db a t1) hfind1 rfl rfl
  have hmapold : db.accommodations.map (updRow (newRow db a t1) a t2) = db.accommodations := by
    refine map_updRow_keep (newRow db a t1) a t2 db.accommodations ?_
    intro r hr
    have hlt := hacc r hr
    simp only [newRow]
    exact Nat.ne_of_lt hlt
  refine ⟨by rw [h1], by rw [h2]; simp [newRow], ?_, ?_, ?_⟩
  · rw [h1]
    show ((db.accommodations ++ [newRow db a t1]).find? (fun r => r.id == db.next_acc_id)).map
        (fun r => r.times_seen) = some 1
    rw [List.find?_append, find?_id_none db.accommodations db.next_acc_id hacc, Option.none_or]
    simp [newRow]
  · rw [h2]
    show (((save_accommodation db a t1).2.accommodations.map
        (updRow (newRow db a t1) a t2)).find? (fun r => r.id == db.next_acc_id)).map
        (fun r => r.times_seen) = some 2
    rw [h1]
    show (((db.accommodations ++ [newRow db a t1]).map (updRow (newRow db a t1) a t2)).find?
        (fun r => r.id == db.next_acc_id)).map (fun r => r.times_seen) = some 2
    rw [List.map_append, hmapold, List.find?_append,
      find?_id_none db.accommodations db.next_acc_id hacc, Option.none_or]
    simp [updRow, newRow]
  · rw [h2]
    show ((save_accommodation db a t1).2.price_history.filter
        (fun p => p.accommodation_id == db.next_acc_id)).length = 1
    rw [h1]
    show ((db.price_history ++ [newObs db a t1]).filter
        (fun p => p.accommodation_id == db.next_acc_id)).length = 1
    rw [List.filter_append, filter_id_nil db.price_history db.next_acc_id hph]
    simp [newObs]

theorem C4_witness :
    (findByHash emptyDB (accHash candA) = none) ∧
    (∀ r ∈ emptyDB.accommodations, r.id < emptyDB.next_acc_id) ∧
    (∀ p ∈ emptyDB.price_history, p.accommodation_id < emptyDB.next_acc_id) ∧
    (((save_accommodation emptyDB candA 10).1 = emptyDB.next_acc_id) ∧
     ((save_accommodation (save_accommodation emptyDB candA 10).2 candA 20).1
         = emptyDB.next_acc_id) ∧
     ((get_accommodation_by_id (save_accommodation emptyDB candA 10).2
         emptyDB.next_acc_id).map (fun r => r.times_seen) = some 1) ∧
     ((get_accommodation_by_id
         (save_accommodation (save_accommodation emptyDB candA 10).2 candA 20).2
         emptyDB.next_acc_id).map (fun r => r.times_seen) = some 2) ∧
     ((histOf (save_accommodation (save_accommodation emptyDB candA 10).2 candA 20).2
         emptyDB.next_acc_id).length = 1)) :=
  ⟨rfl, by simp [emptyDB], by simp [emptyDB],
   C4_upsert_idempotence emptyDB candA 10 20 rfl (by simp [emptyDB]) (by simp [emptyDB])⟩

theorem save_acc_searches (db : DB) (a : Accommodation) (t : Int) :
    (save_accommodation db a t).2.searches = db.searches ∧
    (save_accommodation db a t).2.next_search_id = db.next_search_id := by
  cases hf : findByHash db (accHash a) with
  | none => rw [save_acc_none db a t hf]; exact ⟨rfl, rfl⟩
  | some r =>
      by_cases hne : r.price ≠ a.price ∨ r.currency ≠ a.currency
      · rw [save_acc_some_ne db a t r hf hne]; exact ⟨rfl, rfl⟩
      · push_neg at hne
        rw [save_acc_some_eq db a t r hf hne.1 hne.2]; exact ⟨rfl, rfl⟩

theorem saveAll_searches (l : List Accommodation) (db : DB) (t : Int) :
    (saveAll db l t).searches = db.searches ∧
    (saveAll db l t).next_search_id = db.next_search_id := by
  induction l generalizing db with
  | nil => exact ⟨rfl, rfl⟩
  | cons a as ih =>
      have hstep : saveAll db (a :: as) t = saveAll (save_accommodation db a t).2 as t := rfl
      rw [hstep]
      obtain ⟨hs, hn⟩ := ih (save_accommodation db a t).2
      have h2 := save_acc_searches db a t
      exact ⟨hs.trans h2.1, hn.trans h2.2⟩

theorem saveAllIds_searches (l : List Accommodation) (p : List Nat × DB) (t : Int) :
    (l.foldl (fun (p : List Nat × DB) a =>
        let r := save_accommodation p.2 a t
        (p.1 ++ [r.1], r.2)) p).2.searches = p.2.searches ∧
    (l.foldl (fun (p : List Nat × DB) a =>
        let r := save_accommodation p.2 a t
        (p.1 ++ [r.1], r.2)) p).2.next_search_id = p.2.next_search_id := by
  induction l generalizing p with
  | nil => exact ⟨rfl, rfl⟩
  | cons a as ih =>
      rw [List.foldl_cons]
      obtain ⟨hs, hn⟩ := ih ((p.1 ++ [(save_accommodation p.2 a t).1], (save_accommodation p.2 a t).2))
      have h2 := save_acc_searches p.2 a t
      exact ⟨hs.trans h2.1, hn.trans h2.2⟩

theorem mark_searches (db : DB) (ids : List Nat) :
    (mark_as_notified db ids).searches = db.searches ∧
    (mark_as_notified db ids).next_search_id = db.next_search_id := by
  by_cases h : ids = [] <;> simp [mark_as_notified, h]

theorem notifyStep_searches (cfg : EmailConfig) (smtp : Except String Unit)
    (m : NotificationManager) (db1 : DB) (now : Int) :
    (notifyStep cfg smtp m db1 now).1.searches = db1.searches ∧
    (notifyStep cfg smtp m db1 now).1.next_search_id = db1.next_search_id := by
  simp only [notifyStep]
  split
  · exact ⟨rfl, rfl⟩
  · split
    · have h1 := mark_searches (saveAllIds db1 ((get_new_accommodations db1 now 24).map rowToAccommodation) now).2
        (saveAllIds db1 ((get_new_accommodations db1 now 24).map rowToAccommodation) now).1
      have h2 := saveAllIds_searches ((get_new_accommodations db1 now 24).map rowToAccommodation) ([], db1) now
      exact ⟨h1.1.trans h2.1, h1.2.trans h2.2⟩
    · exact ⟨rfl, rfl⟩

/-- C9: within one pass, for every outcome of the notify calls — a failure
return, or an SMTP error raised inside the send and caught by
`_send_email`'s except arms — the pass still appends exactly one QueryRecord
carrying the result count and the execution duration. -/
theorem C9_record_search_always (cfg : EmailConfig) (criteria : SearchCriteria)
    (target_price : ℚ) (raw : List Accommodation)
    (filtered_of : List Accommodation → List Accommodation)
    (smtp_new smtp_price : Except String Unit) (st : AgentState) (now execMs : Int)
    (hraw : raw ≠ []) (hfil : filtered_of raw ≠ []) :
    (search_and_process cfg criteria target_price raw filtered_of smtp_new smtp_price
        st now execMs).1.db.searches
      = st.db.searches ++
        [{ id := st.db.next_search_id, timestamp := now,
           criteria_hash := criteriaHash criteria,
           results_count := (filtered_of raw).length, execution_time_ms := execMs }] := by
  have h1 : raw.isEmpty = false := by
    cases raw with
    | nil => exact absurd rfl hraw
    | cons a l => rfl
  have h2 : (filtered_of raw).isEmpty = false := by
    cases hh : filtered_of raw with
    | nil => exact absurd hh hfil
    | cons a l => rfl
  simp only [search_and_process, h1, h2, Bool.false_eq_true, if_false, save_search_record]
  have hns := notifyStep_searches cfg smtp_new st.manager (saveAll st.db (filtered_of raw) now) now
  have hsa := saveAll_searches (filtered_of raw) st.db now
  rw [hns.1, hsa.1, hns.2, hsa.2]

theorem C9_witness :
    (([candA] : List Accommodation) ≠ []) ∧
    ((fun l => l) [candA] ≠ ([] : List Accommodation)) ∧
    ((search_and_process cfgOk criteria0 400 [candA] (fun l => l)
        (Except.error "SMTPAuthenticationError") (Except.error "ConnectionError")
        { db := emptyDB, manager := ⟨[]⟩ } 1000000 7).1.db.searches
      = emptyDB.searches ++
        [{ id := emptyDB.next_search_id, timestamp := 1000000,
           criteria_hash := criteriaHash criteria0,
           results_count := ((fun l => l) [candA]).length, execution_time_ms := 7 }]) :=
  ⟨List.cons_ne_nil candA [], List.cons_ne_nil candA [],
   C9_record_search_always cfgOk criteria0 400 [candA] (fun l => l)
     (Except.error "SMTPAuthenticationError") (Except.error "ConnectionError")
     { db := emptyDB, manager := ⟨[]⟩ } 1000000 7
     (List.cons_ne_nil candA []) (List.cons_ne_nil candA [])⟩


/-! ### Price-history invariants (C5) -/
theorem wf_empty (b : Int) : Wf emptyDB b := by
  constructor <;> simp [emptyDB, histOf]

theorem wf_mono (db : DB) (b b' : Int) (h : Wf db b) (hle : b ≤ b') : Wf db b' :=
  ⟨h.ids_lt, h.obs_ids_lt, fun p hp => lt_of_lt_of_le (h.ts_lt p hp) hle,
   h.chains, h.nodup_ids, h.last_matches⟩

theorem filter_concat_id (l : List PriceRow) (q : PriceRow) (i : Nat) :
    (l ++ [q]).filter (fun p => p.accommodation_id == i)
      = l.filter (fun p => p.accommodation_id == i) ++
        (if q.accommodation_id = i then [q] else []) := by
  rw [List.filter_append]
  congr 1
  by_cases h : q.accommodation_id = i <;> simp [h]

theorem updRow_id (e : AccRow) (a : Accommodation) (t : Int) (r : AccRow) :
    (updRow e a t r).id = r.id := by
  by_cases h : r.id = e.id <;> simp [updRow, h]

theorem eq_of_mem_id (l : List AccRow) (hnd : l.Pairwise (fun r s => r.id ≠ s.id))
    (x y : AccRow) (hx : x ∈ l) (hy : y ∈ l) (hid : x.id = y.id) : x = y := by
  induction l with
  | nil => cases hx
  | cons z zs ih =>
      rw [List.pairwise_cons] at hnd
      cases hx with
      | head =>
          cases hy with
          | head => rfl
          | tail _ hy2 => exact absurd hid (hnd.1 y hy2)
      | tail _ hx2 =>
          cases hy with
          | head => exact absurd hid.symm (hnd.1 x hx2)
          | tail _ hy2 => exact ih hnd.2 hx2 hy2

theorem chain'_concat_lt (l : List Int) (x : Int) (hc : l.Chain' (· < ·))
    (hall : ∀ y ∈ l, y < x) : (l ++ [x]).Chain' (· < ·) := by
  rw [List.chain'_append]
  refine ⟨hc, List.chain'_singleton x, ?_⟩
  intro y hy z hz
  have hz2 : z = x := by
    cases hz
    rfl
  subst hz2
  exact hall y (List.mem_of_mem_getLast? hy)

/-- Appending one observation newer than every stored one preserves the
per-item strict chains. -/
theorem chains_concat (P : List PriceRow) (q : PriceRow)
    (hch : ∀ i : Nat, ((P.filter (fun p => p.accommodation_id == i)).map
        (fun p => p.timestamp)).Chain' (· < ·))
    (hts : ∀ p ∈ P, p.timestamp < q.timestamp) :
    ∀ i : Nat, (((P ++ [q]).filter (fun p => p.accommodation_id == i)).map
        (fun p => p.timestamp)).Chain' (· < ·) := by
  intro i
  rw [filter_concat_id]
  by_cases hi : q.accommodation_id = i
  · rw [if_pos hi, List.map_append]
    refine chain'_concat_lt _ _ (hch i) ?_
    intro y hy
    rw [List.mem_map] at hy
    obtain ⟨p, hp, hpy⟩ := hy
    subst hpy
    exact hts p (List.mem_of_mem_filter hp)
  · rw [if_neg hi, List.append_nil]
    exact hch i

theorem wf_step (db : DB) (a : Accommodation) (t bound : Int)
    (hwf : Wf db t) (ht : t < bound) :
    Wf (save_accommodation db a t).2 bound := by
  cases hf : findByHash db (accHash a) with
  | none =>
      rw [save_acc_none db a t hf]
      constructor
      · intro r hr
        rcases List.mem_append.mp hr with h | h
        · exact Nat.lt_trans (hwf.ids_lt r h) (Nat.lt_succ_self _)
        · rw [List.mem_singleton] at h
          subst h
          exact Nat.lt_succ_self _
      · intro p hp
        rcases List.mem_append.mp hp with h | h
        · exact Nat.lt_trans (hwf.obs_ids_lt p h) (Nat.lt_succ_self _)
        · rw [List.mem_singleton] at h
          subst h
          exact Nat.lt_succ_self _
      · intro p hp
        rcases List.mem_append.mp hp with h | h
        · exact lt_trans (hwf.ts_lt p h) ht
        · rw [List.mem_singleton] at h
          subst h
          exact ht
      · exact chains_concat db.price_history (newObs db a t) hwf.chains hwf.ts_lt
      · rw [List.pairwise_append]
        refine ⟨hwf.nodup_ids, List.pairwise_singleton _ _, ?_⟩
        intro x hx y hy
        rw [List.mem_singleton] at hy
        subst hy
        exact Nat.ne_of_lt (hwf.ids_lt x hx)
      · intro r hr
        rcases List.mem_append.mp hr with h | h
        · obtain ⟨p, hp1, hp2, hp3⟩ := hwf.last_matches r h
          refine ⟨p, ?_, hp2, hp3⟩
          show ((db.price_history ++ [newObs db a t]).filter
              (fun q => q.accommodation_id == r.id)).getLast? = some p
          rw [filter_concat_id, if_neg, List.append_nil]
          · exact hp1
          · exact (Nat.ne_of_lt (hwf.ids_lt r h)).symm
        · rw [List.mem_singleton] at h
          subst h
          refine ⟨newObs db a t, ?_, rfl, rfl⟩
          show ((db.price_history ++ [newObs db a t]).filter
              (fun q => q.accommodation_id == db.next_acc_id)).getLast? = some (newObs db a t)
          have hcond : (newObs db a t).accommodation_id = db.next_acc_id := rfl
          rw [filter_concat_id, if_pos hcond,
            filter_id_nil db.price_history db.next_acc_id hwf.obs_ids_lt]
          rfl
  | some r0 =>
      have hr0mem : r0 ∈ db.accommodations := List.mem_of_find?_eq_some hf
      by_cases hne : r0.price ≠ a.price ∨ r0.currency ≠ a.currency
      · rw [save_acc_some_ne db a t r0 hf hne]
        constructor
        · intro r hr
          rw [List.mem_map] at hr
          obtain ⟨x, hx, hxr⟩ := hr
          subst hxr
          rw [updRow_id]
          exact hwf.ids_lt x hx
        · intro p hp
          rcases List.mem_append.mp hp with h | h
          · exact hwf.obs_ids_lt p h
          · rw [List.mem_singleton] at h
            subst h
            exact hwf.ids_lt r0 hr0mem
        · intro p hp
          rcases List.mem_append.mp hp with h | h
          · exact lt_trans (hwf.ts_lt p h) ht
          · rw [List.mem_singleton] at h
            subst h
            exact ht
        · exact chains_concat db.price_history _ hwf.chains hwf.ts_lt
        · rw [List.pairwise_map]
          refine hwf.nodup_ids.imp ?_
          intro x y hxy
          rw [updRow_id, updRow_id]
          exact hxy
        · intro r hr
          rw [List.mem_map] at hr
          obtain ⟨x, hx, hxr⟩ := hr
          subst hxr
          by_cases hxid : x.id = r0.id
          · have hx0 : x = r0 := eq_of_mem_id db.accommodations hwf.nodup_ids x r0 hx hr0mem hxid
            subst hx0
            refine ⟨{ id := db.next_price_id, accommodation_id := x.id,
                      price := a.price, currency := a.currency, timestamp := t }, ?_, ?_, ?_⟩
            · show ((db.price_history ++
                  [({ id := db.next_price_id, accommodation_id := x.id,
                      price := a.price, currency := a.currency,
                      timestamp := t } : PriceRow)]).filter
                  (fun q : PriceRow => q.accommodation_id == (updRow x a t x).id)).getLast?
                = some ({ id := db.next_price_id, accommodation_id := x.id,
                          price := a.price, currency := a.currency,
                          timestamp := t } : PriceRow)
              rw [updRow_id]
              rw [filter_concat_id, if_pos (rfl : x.id = x.id)]
              rw [List.getLast?_concat]
            · simp [updRow]
            · simp [updRow]
          · have hupd : updRow r0 a t x = x := by simp [updRow, hxid]
            rw [hupd]
            obtain ⟨p, hp1, hp2, hp3⟩ := hwf.last_matches x hx
            refine ⟨p, ?_, hp2, hp3⟩
            show ((db.price_history ++
                [({ id := db.next_price_id, accommodation_id := r0.id,
                    price := a.price, currency := a.currency,
                    timestamp := t } : PriceRow)]).filter
                (fun q : PriceRow => q.accommodation_id == x.id)).getLast? = some p
            rw [filter_concat_id, if_neg, List.append_nil]
            · exact hp1
            · exact fun hcon => hxid (hcon.symm)
      · push_neg at hne
        rw [save_acc_some_eq db a t r0 hf hne.1 hne.2]
        constructor
        · intro r hr
          rw [List.mem_map] at hr
          obtain ⟨x, hx, hxr⟩ := hr
          subst hxr
          rw [updRow_id]
          exact hwf.ids_lt x hx
        · exact hwf.obs_ids_lt
        · exact fun p hp => lt_trans (hwf.ts_lt p hp) ht
        · exact hwf.chains
        · rw [List.pairwise_map]
          refine hwf.nodup_ids.imp ?_
          intro x y hxy
          rw [updRow_id, updRow_id]
          exact hxy
        · intro r hr
          rw [List.mem_map] at hr
          obtain ⟨x, hx, hxr⟩ := hr
          subst hxr
          by_cases hxid : x.id = r0.id
          · have hx0 : x = r0 := eq_of_mem_id db.accommodations hwf.nodup_ids x r0 hx hr0mem hxid
            subst hx0
            obtain ⟨p, hp1, hp2, hp3⟩ := hwf.last_matches x hx
            refine ⟨p, ?_, ?_, ?_⟩
            · show ((db.price_history).filter
                  (fun q => q.accommodation_id == (updRow x a t x).id)).getLast? = some p
              rw [updRow_id]
              exact hp1
            · rw [hp2, hne.1]
              simp [updRow]
            · rw [hp3, hne.2]
              simp [updRow]
          · have hupd : updRow r0 a t x = x := by simp [updRow, hxid]
            rw [hupd]
            exact hwf.last_matches x hx

theorem wf_run (steps : List (Int × Accommodation)) : ∀ (db : DB) (b : Int),
    Wf db b → List.Chain (· < ·) (b - 1) (steps.map Prod.fst) →
    ∀ b2 : Int, (∀ s ∈ steps, s.1 < b2) → b ≤ b2 →
    Wf (runUpserts db steps) b2 := by
  induction steps with
  | nil =>
      intro db b hwf _ b2 _ hb
      exact wf_mono db b b2 hwf hb
  | cons s ss ih =>
      intro db b hwf hchain b2 hlt hb
      rw [List.map_cons, List.chain_cons] at hchain
      obtain ⟨hb1, hchain2⟩ := hchain
      have hwf1 : Wf db s.1 := wf_mono db b s.1 hwf (by omega)
      have hwf2 : Wf (save_accommodation db s.2 s.1).2 (s.1 + 1) :=
        wf_step db s.2 s.1 (s.1 + 1) hwf1 (by omega)
      have hstep : runUpserts db (s :: ss) = runUpserts (save_accommodation db s.2 s.1).2 ss := rfl
      rw [hstep]
      refine ih (save_accommodation db s.2 s.1).2 (s.1 + 1) hwf2 ?_ b2
        (fun x hx => hlt x (List.mem_cons_of_mem s hx)) ?_
      · have he : s.1 + 1 - 1 = s.1 := by omega
        rw [he]
        exact hchain2
      · have := hlt s (List.mem_cons_self s ss)
        omega

theorem wf_prefix (pre : List (Int × Accommodation)) (t : Int)
    (h1 : (pre.map Prod.fst).Chain' (· < ·))
    (h2 : ∀ s ∈ pre, s.1 < t) :
    Wf (runUpserts emptyDB pre) t := by
  cases pre with
  | nil => exact wf_empty t
  | cons s ss =>
      refine wf_run (s :: ss) emptyDB s.1 (wf_empty s.1) ?_ t h2 ?_
      · rw [List.map_cons, List.chain_cons]
        refine ⟨by omega, ?_⟩
        rw [List.map_cons] at h1
        exact h1
      · exact le_of_lt (h2 s (List.mem_cons_self s ss))

theorem le_listMax (l : List Int) : ∀ x ∈ l, x ≤ listMax l := by
  induction l with
  | nil => intro x hx; cases hx
  | cons a as ih =>
      intro x hx
      cases hx with
      | head => exact le_max_left a (listMax as)
      | tail _ h => exact le_trans (ih x h) (le_max_right a (listMax as))

/-- C5: for every sequence of upserts performed at strictly increasing
timestamps starting from an empty store, every item's price-observation
timestamps are strictly increasing; and at each step, if the candidate's
identity is new the item gets exactly its first observation, while if it is
already tracked an observation is appended if and only if the incoming price
or currency differs from the row's current stored value — which itself always
equals the immediately preceding observation's price and currency. -/
theorem C5_price_history_monotone (steps : List (Int × Accommodation))
    (hmono : (steps.map Prod.fst).Chain' (· < ·)) :
    (∀ i : Nat,
        ((histOf (runUpserts emptyDB steps) i).map (fun p => p.timestamp)).Chain' (· < ·)) ∧
    (∀ (pre : List (Int × Accommodation)) (t : Int) (a : Accommodation)
        (post : List (Int × Accommodation)), steps = pre ++ (t, a) :: post →
      (findByHash (runUpserts emptyDB pre) (accHash a) = none →
          histOf (save_accommodation (runUpserts emptyDB pre) a t).2
              (runUpserts emptyDB pre).next_acc_id
            = [newObs (runUpserts emptyDB pre) a t]) ∧
      (∀ r : AccRow, findByHash (runUpserts emptyDB pre) (accHash a) = some r →
          (histOf (save_accommodation (runUpserts emptyDB pre) a t).2 r.id
             = if r.price = a.price ∧ r.currency = a.currency
               then histOf (runUpserts emptyDB pre) r.id
               else histOf (runUpserts emptyDB pre) r.id ++
                 [{ id := (runUpserts emptyDB pre).next_price_id, accommodation_id := r.id,
                    price := a.price, currency := a.currency, timestamp := t }]) ∧
          (∃ p, (histOf (runUpserts emptyDB pre) r.id).getLast? = some p ∧
             p.price = r.price ∧ p.currency = r.currency))) := by
  constructor
  · cases steps with
    | nil =>
        intro i
        simp [runUpserts, emptyDB, histOf]
    | cons s ss =>
        have hwf := wf_run (s :: ss) emptyDB s.1 (wf_empty s.1)
          (by
            rw [List.map_cons, List.chain_cons]
            refine ⟨by omega, ?_⟩
            rw [List.map_cons] at hmono
            exact hmono)
          (listMax ((s :: ss).map Prod.fst) + 1)
          (fun x hx => by
            have := le_listMax ((s :: ss).map Prod.fst) x.1 (List.mem_map_of_mem Prod.fst hx)
            omega)
          (by
            have := le_listMax ((s :: ss).map Prod.fst) s.1
              (List.mem_map_of_mem Prod.fst (List.mem_cons_self s ss))
            omega)
        exact hwf.chains
  · intro pre t a post heq
    subst heq
    rw [List.map_append, List.map_cons, List.chain'_iff_pairwise] at hmono
    obtain ⟨hpw1, hpw2, hcross⟩ := List.pairwise_append.mp hmono
    have h1 : (pre.map Prod.fst).Chain' (· < ·) := List.chain'_iff_pairwise.mpr hpw1
    have h2 : ∀ s ∈ pre, s.1 < t := by
      intro s hs
      exact hcross s.1 (List.mem_map_of_mem Prod.fst hs) t
        (List.mem_cons_self t (post.map Prod.fst))
    have hwf := wf_prefix pre t h1 h2
    constructor
    · intro hnone
      rw [save_acc_none (runUpserts emptyDB pre) a t hnone]
      show ((runUpserts emptyDB pre).price_history ++
          [newObs (runUpserts emptyDB pre) a t]).filter
          (fun p => p.accommodation_id == (runUpserts emptyDB pre).next_acc_id)
        = [newObs (runUpserts emptyDB pre) a t]
      rw [filter_concat_id]
      have hcond : (newObs (runUpserts emptyDB pre) a t).accommodation_id
          = (runUpserts emptyDB pre).next_acc_id := rfl
      rw [if_pos hcond,
        filter_id_nil (runUpserts emptyDB pre).price_history
          (runUpserts emptyDB pre).next_acc_id hwf.obs_ids_lt]
      rfl
    · intro r hfind
      refine ⟨?_, hwf.last_matches r (List.mem_of_find?_eq_some hfind)⟩
      by_cases hpc : r.price = a.price ∧ r.currency = a.currency
      · rw [if_pos hpc, save_acc_some_eq (runUpserts emptyDB pre) a t r hfind hpc.1 hpc.2]
        rfl
      · rw [if_neg hpc]
        have hne : r.price ≠ a.price ∨ r.currency ≠ a.currency := by tauto
        rw [save_acc_some_ne (runUpserts emptyDB pre) a t r hfind hne]
        show ((runUpserts emptyDB pre).price_history ++
            [({ id := (runUpserts emptyDB pre).next_price_id, accommodation_id := r.id,
                price := a.price, currency := a.currency, timestamp := t } : PriceRow)]).filter
            (fun p : PriceRow => p.accommodation_id == r.id)
          = histOf (runUpserts emptyDB pre) r.id ++
            [{ id := (runUpserts emptyDB pre).next_price_id, accommodation_id := r.id,
               price := a.price, currency := a.currency, timestamp := t }]
        rw [filter_concat_id]
        simp [histOf]

theorem C5_witness :
    ((([(0, candA), (10, candA260)] : List (Int × Accommodation)).map Prod.fst).Chain' (· < ·)) ∧
    ((∀ i : Nat,
        ((histOf (runUpserts emptyDB [(0, candA), (10, candA260)]) i).map
            (fun p => p.timestamp)).Chain' (· < ·)) ∧
     (∀ (pre : List (Int × Accommodation)) (t : Int) (a : Accommodation)
        (post : List (Int × Accommodation)),
        ([(0, candA), (10, candA260)] : List (Int × Accommodation)) = pre ++ (t, a) :: post →
      (findByHash (runUpserts emptyDB pre) (accHash a) = none →
          histOf (save_accommodation (runUpserts emptyDB pre) a t).2
              (runUpserts emptyDB pre).next_acc_id
            = [newObs (runUpserts emptyDB pre) a t]) ∧
      (∀ r : AccRow, findByHash (runUpserts emptyDB pre) (accHash a) = some r →
          (histOf (save_accommodation (runUpserts emptyDB pre) a t).2 r.id
             = if r.price = a.price ∧ r.currency = a.currency
               then histOf (runUpserts emptyDB pre) r.id
               else histOf (runUpserts emptyDB pre) r.id ++
                 [{ id := (runUpserts emptyDB pre).next_price_id, accommodation_id := r.id,
                    price := a.price, currency := a.currency, timestamp := t }]) ∧
          (∃ p, (histOf (runUpserts emptyDB pre) r.id).getLast? = some p ∧
             p.price = r.price ∧ p.currency = r.currency)))) := by
  have hch : ((([(0, candA), (10, candA260)] : List (Int × Accommodation)).map
      Prod.fst).Chain' (· < ·)) := by
    rw [List.map_cons, List.map_cons, List.map_nil]
    exact List.chain'_pair.mpr (by norm_num)
  exact ⟨hch, C5_price_history_monotone [(0, candA), (10, candA260)] hch⟩

end AccAgent
